import Mathlib

/-
Verification development for the LinkedIn job-automation bot.

Shallow embedding of the program's core logic:
  * configuration defaults            (src/config/config.js)
  * posting extraction and relevance  (LinkedInService.extractJobPosts,
                                       extractPostData, isRelevantJobPost,
                                       extractEmails)
  * AI classification fallback        (GeminiService.analyzeJobPost)
  * quota / cooldown gate             (EmailService.canSendEmail,
                                       updateEmailTracking, saveSentEmail)
  * orchestration control flow        (LinkedInBot.start, processJobs,
                                       LinkedInService.searchJobs keyword loop)

Conventions: JS timestamps (Date.now(), milliseconds) are Nat; `null`
becomes `Option`; functions that can throw in a way the callers observe
are modelled with explicit outcome types.  Where a JS method performs
several `Date.now()` / `new Date()` reads inside one synchronous body,
they are modelled as a single instant `now`.
-/

/- ===== Configuration (src/config/config.js) =====
   Each numeric option is parseInt(env) || default; with the environment
   unset the defaults below apply.  Only the fields the verified claims
   touch are carried. -/

structure BotConfig where
  /-- config.bot.maxApplicationsPerDay (default 10). -/
  maxApplicationsPerDay : Nat
  /-- config.bot.delayBetweenApplications, in minutes (default 30). -/
  delayBetweenApplications : Nat
deriving DecidableEq, Repr

def defaultBotConfig : BotConfig :=
  ⟨10, 30⟩

structure LinkedInConfig where
  /-- config.linkedin.maxSearchResults (default 10). -/
  maxSearchResults : Nat
deriving DecidableEq, Repr

def defaultLinkedInConfig : LinkedInConfig :=
  ⟨10⟩

/- ===== String primitives used by the JS code =====
   Explicit List-Char implementations of String.prototype.toLowerCase,
   trim and includes, kept executable for concrete evaluation. -/

/-- JS String.prototype.toLowerCase restricted to the ASCII range
(the program only compares ASCII text). -/
def toLowerStr (s : String) : String :=
  String.mk (s.data.map Char.toLower)

def trimChars (cs : List Char) : List Char :=
  ((cs.dropWhile Char.isWhitespace).reverse.dropWhile Char.isWhitespace).reverse

/-- JS String.prototype.trim (ASCII whitespace). -/
def jsTrim (s : String) : String :=
  String.mk (trimChars s.data)

def startsWithChars : List Char → List Char → Bool
  | [], _ => true
  | _ :: _, [] => false
  | a :: as, b :: bs => a == b && startsWithChars as bs

/-- JS String.prototype.includes: `needle` occurs contiguously in `hay`. -/
def containsSubstring (hay needle : String) : Bool :=
  (List.range (hay.data.length + 1)).any fun i =>
    startsWithChars needle.data (hay.data.drop i)

/- ===== Email extraction (LinkedInService.extractEmails) =====
   JS: const emailRegex = /[a-zA-Z0-9._%+-]+@[a-zA-Z0-9.-]+\.[a-zA-Z]{2,}/g;
       const emails = text.match(emailRegex) || [];
       filter out noreply / no-reply / donotreply (case-insensitive includes);
       return [...new Set(filteredEmails)];
   The regex engine is modelled by a greedy, backtracking, left-to-right
   non-overlapping scan, exactly the semantics /g gives for this pattern. -/

/-- Character class [a-zA-Z0-9._%+-] (the local part of the pattern). -/
def isLocalChar (c : Char) : Bool :=
  c.isAlpha || c.isDigit || c == '.' || c == '_' || c == '%' || c == '+' || c == '-'

/-- Character class [a-zA-Z0-9.-] (the domain part of the pattern). -/
def isDomainChar (c : Char) : Bool :=
  c.isAlpha || c.isDigit || c == '.' || c == '-'

/-- Backtracking split of the domain tail: the greedy `[a-zA-Z0-9.-]+`
tries the longest prefix first, so the engine picks the largest index
j ≥ 1 such that `cs` has a dot at position j followed by at least two
ASCII letters; the final `[a-zA-Z]{2,}` then greedily takes the whole
letter run.  Returns (j, number of letters taken). -/
def domainSplit (cs : List Char) : Nat → Option (Nat × Nat)
  | 0 => none
  | j + 1 =>
    match cs.get? (j + 1) with
    | some '.' =>
      let alphas := ((cs.drop (j + 2)).takeWhile Char.isAlpha).length
      if 2 ≤ alphas then some (j + 1, alphas) else domainSplit cs j
    | _ => domainSplit cs j

/-- Attempt to match the email pattern anchored at the head of `cs`;
on success returns the matched characters and the remaining input.
The local part `[a-zA-Z0-9._%+-]+` must be the maximal run (backtracking
cannot help: a shorter run is still followed by a local-part character,
never by '@'). -/
def tryEmailAt (cs : List Char) : Option (List Char × List Char) :=
  let lp := cs.takeWhile isLocalChar
  if lp.isEmpty then none
  else
    match cs.drop lp.length with
    | '@' :: rest =>
      let m := (rest.takeWhile isDomainChar).length
      match domainSplit rest (m - 1) with
      | some (j, a) =>
        let len := lp.length + 1 + j + 1 + a
        some (cs.take len, cs.drop len)
      | none => none
    | _ => none

/-- Left-to-right global scan (String.prototype.match with /g): try each
start position, and continue after the end of every match.  The fuel is
the input length, which bounds the number of steps. -/
def scanEmailsAux : Nat → List Char → List (List Char)
  | 0, _ => []
  | _ + 1, [] => []
  | fuel + 1, c :: cs =>
    match tryEmailAt (c :: cs) with
    | some (em, rest) => em :: scanEmailsAux fuel rest
    | none => scanEmailsAux fuel cs

def scanEmails (cs : List Char) : List (List Char) :=
  scanEmailsAux cs.length cs

/-- The denylist filter body: keep an address only if its lowercase form
includes none of noreply, no-reply, donotreply. -/
def isAllowedEmail (email : String) : Bool :=
  let lowerEmail := toLowerStr email
  !(containsSubstring lowerEmail "noreply") &&
  !(containsSubstring lowerEmail "no-reply") &&
  !(containsSubstring lowerEmail "donotreply")

/-- One insertion step of `[...new Set(xs)]`: a JS Set keeps the first
occurrence of each (exact, case-sensitive) string. -/
def insertIfNew (acc : List String) (x : String) : List String :=
  if x ∈ acc then acc else acc ++ [x]

/-- `[...new Set(xs)]`: first-occurrence order, exact string equality. -/
def jsSetDedup (xs : List String) : List String :=
  xs.foldl insertIfNew []

/-- LinkedInService.extractEmails. -/
def extractEmails (text : String) : List String :=
  let emails := (scanEmails text.data).map String.mk
  let filteredEmails := emails.filter isAllowedEmail
  jsSetDedup filteredEmails

/- ===== Candidate records (LinkedInService.extractPostData) =====
   author, company, postUrl and extractedAt are carried by the JS record
   but never read by the control flow the claims concern; they are
   omitted from the embedding. -/

structure JobPost where
  content : String
  emails : List String
  /-- JS: hasEmails: emails.length > 0. -/
  hasEmails : Bool
  searchKeyword : String
deriving DecidableEq, Repr

/-- LinkedInService.isRelevantJobPost: the jobIndicators array, verbatim. -/
def jobIndicators : List String :=
  ["hiring", "job", "position", "role", "opportunity",
   "looking for", "seeking", "join our team", "we are hiring",
   "apply", "candidate", "developer", "engineer"]

/-- LinkedInService.isRelevantJobPost:
hasJobIndicator && (hasSearchKeyword || content.length > 100). -/
def isRelevantJobPost (content searchKeyword : String) : Bool :=
  let lowerContent := toLowerStr content
  let hasJobIndicator := jobIndicators.any fun indicator =>
    containsSubstring lowerContent (toLowerStr indicator)
  let hasSearchKeyword := containsSubstring lowerContent (toLowerStr searchKeyword)
  hasJobIndicator && (hasSearchKeyword || decide (100 < content.length))

/-- LinkedInService.extractPostData: trims the post text, returns null on
empty content, otherwise builds the record with the extracted addresses.
`rawText` is the text content of the post element; failures inside the
JS try block also yield null and are absorbed into the none case. -/
def extractPostData (rawText : String) : Option JobPost :=
  let content := jsTrim rawText
  if content = "" then none
  else
    let emails := extractEmails content
    some ⟨content, emails, decide (0 < emails.length), ""⟩

/-- Per-container body of the extraction loop in
LinkedInService.extractJobPosts: keep the post only if extractPostData
succeeded and isRelevantJobPost holds, stamping the search keyword. -/
def keepPost (searchKeyword : String) (rawText : String) : Option JobPost :=
  match extractPostData rawText with
  | some postData =>
    if isRelevantJobPost postData.content searchKeyword then
      some ⟨postData.content, postData.emails, postData.hasEmails, searchKeyword⟩
    else
      none
  | none => none

/-- LinkedInService.extractJobPosts: the loop runs for
i < postContainers.length && i < config.linkedin.maxSearchResults,
pushing at most one record per iteration. -/
def extractJobPosts (maxSearchResults : Nat) (searchKeyword : String)
    (rawPosts : List String) : List JobPost :=
  (rawPosts.take maxSearchResults).filterMap (keepPost searchKeyword)

/- ===== AI classification (GeminiService.analyzeJobPost) ===== -/

/-- The fields of the classification record the orchestrator reads.
requirements, technologies, emails and summary are also produced but
never influence control flow. -/
structure JobAnalysis where
  company : Option String
  position : String
  isLegitimate : Bool
  relevanceScore : Int
deriving DecidableEq, Repr

/-- Outcome of the Gemini call inside analyzeJobPost: the response parsed
as JSON, or JSON.parse threw, or generateContent itself threw. -/
inductive GeminiOutcome where
  | parsed (analysis : JobAnalysis)
  | unparseable
  | apiError
deriving DecidableEq, Repr

/-- The default object returned on either failure branch (the two JS
literals differ only in the summary string, which is not modelled):
isLegitimate: true, relevanceScore: 5, position: 'Software Developer'. -/
def defaultAnalysis : JobAnalysis :=
  ⟨none, "Software Developer", true, 5⟩

/-- GeminiService.analyzeJobPost: both the JSON.parse catch and the outer
catch return the default object, so the function is total (never
propagates the collaborator's exception). -/
def analyzeJobPost : GeminiOutcome → JobAnalysis
  | .parsed analysis => analysis
  | .unparseable => defaultAnalysis
  | .apiError => defaultAnalysis

/- ===== Per-job gate (LinkedInBot.processIndividualJob / processJobs) ===== -/

/-- The skip check at the top of LinkedInBot.processIndividualJob:
`if (!jobAnalysis.isLegitimate || jobAnalysis.relevanceScore < 5) return;`
returns true when the job proceeds past the check to email handling. -/
def passesSkipCheck (analysis : JobAnalysis) : Bool :=
  if !analysis.isLegitimate || decide (analysis.relevanceScore < 5) then false
  else true

/-- LinkedInBot.processJobs: `jobs.filter(job => job.hasEmails)` -- only
these jobs enter the per-job loop. -/
def jobsWithEmails (jobs : List JobPost) : List JobPost :=
  jobs.filter fun job => job.hasEmails

/-- The candidate loop of LinkedInBot.processJobs:
`if (this.shouldStop) break;` at the top of every iteration.
`flag i` is the value of this.shouldStop read at the top of iteration i;
the returned list is the candidates that were processed. -/
def processJobsLoop (flag : Nat → Bool) : List JobPost → Nat → List JobPost
  | [], _ => []
  | job :: rest, i =>
    if flag i then [] else job :: processJobsLoop flag rest (i + 1)

/-- The keyword loop of LinkedInService.searchJobs:
`for (const keyword of keywords) { ... }`.  The body performs no check of
the stop flag (LinkedInService holds no reference to
LinkedInBot.shouldStop), so the `flag` argument is never consulted; the
returned list is the keywords that were searched. -/
def searchJobsLoop (flag : Nat → Bool) : List String → Nat → List String
  | [], _ => []
  | keyword :: rest, i => keyword :: searchJobsLoop flag rest (i + 1)

/- ===== Quota gate (EmailService) ===== -/

/-- The in-memory quota counters of EmailService:
this.dailyEmailCount (number) and this.lastEmailTime (timestamp | null). -/
structure EmailTracking where
  dailyEmailCount : Nat
  lastEmailTime : Option Nat
deriving DecidableEq, Repr

/-- The EmailService constructor sets dailyEmailCount = 0 and
lastEmailTime = null.  It reads nothing from disk; the persisted
sent-email store is passed here only to record that fact (the parameter
is ignored, exactly as the constructor ignores the store). -/
def freshEmailService (_store : List Nat) : EmailTracking :=
  ⟨0, none⟩

/-- Calendar-day key of a millisecond timestamp, modelling
`new Date(ms).toDateString()` (two timestamps compare equal exactly when
they fall on the same calendar day). -/
def toDateString (ms : Nat) : Nat :=
  ms / 86400000

/-- EmailService.canSendEmail:
false if dailyEmailCount >= config.bot.maxApplicationsPerDay;
else false if lastEmailTime is set and
now - lastEmailTime < delayBetweenApplications minutes; else true.
Note: no date is consulted anywhere in this method. -/
def canSendEmail (cfg : BotConfig) (now : Nat) (s : EmailTracking) : Bool :=
  if cfg.maxApplicationsPerDay ≤ s.dailyEmailCount then false
  else
    match s.lastEmailTime with
    | some lastEmailTime =>
      if now - lastEmailTime < cfg.delayBetweenApplications * 60 * 1000 then false
      else true
    | none => true

/-- EmailService.updateEmailTracking:
  this.dailyEmailCount++;
  this.lastEmailTime = Date.now();
  // Reset daily count if it's a new day
  if (new Date(this.lastEmailTime).toDateString() !== new Date().toDateString())
    this.dailyEmailCount = 1;
Both Date reads happen in the same synchronous body and are modelled as
the single instant `now`; because lastEmailTime was just assigned `now`,
the reset condition compares a timestamp's day with itself. -/
def updateEmailTracking (now : Nat) (s : EmailTracking) : EmailTracking :=
  let newCount := s.dailyEmailCount + 1
  let newLastEmailTime := now
  ⟨if toDateString newLastEmailTime ≠ toDateString now then 1 else newCount,
   some newLastEmailTime⟩

/-- EmailService.saveSentEmail: appends one record to the day-keyed
sent-emails file (only the timestamp of each record matters here). -/
def saveSentEmail (sentEmails : List Nat) (now : Nat) : List Nat :=
  sentEmails ++ [now]

/-- Number of records the durable store holds for a given calendar day
(EmailService.getEmailStats reads this as sentEmails.length of the
day's file). -/
def storeCountForDay (store : List Nat) (day : Nat) : Nat :=
  (store.filter fun t => toDateString t == day).length

/- ===== Orchestration (LinkedInBot.start) ===== -/

/-- Outcome of linkedinService.login() as observed by start():
returned true, returned false (start then throws 'Failed to login to
LinkedIn', e.g. an unresolved security challenge after the bounded
2-minute wait), or threw. -/
inductive LoginOutcome where
  | success
  | failed
  | threw
deriving DecidableEq, Repr

/-- Observable effects of one LinkedInBot.start() call.
returned = some b when start returned b; none would mean an exception
escaped.  reportGenerated records whether generateSessionReport ran;
cleanedUp whether the finally block's cleanup ran. -/
structure StartResult where
  returned : Option Bool
  reportGenerated : Bool
  cleanedUp : Bool
deriving DecidableEq, Repr

/-- LinkedInBot.start: try { login -- throws on false --; search; if no
jobs return false; processJobs (its errors are swallowed inside);
generateSessionReport; return true } catch { return false }
finally { cleanup }.  `jobs` is the result of searchForJobs (which
catches its own errors and returns []). -/
def start (login : LoginOutcome) (jobs : List JobPost) : StartResult :=
  match login with
  | .success =>
    if jobs.isEmpty then ⟨some false, false, true⟩
    else ⟨some true, true, true⟩
  | .failed => ⟨some false, false, true⟩
  | .threw => ⟨some false, false, true⟩

/- ===== Supporting lemmas ===== -/

theorem insertIfNew_nodup (acc : List String) (x : String) (h : acc.Nodup) :
    (insertIfNew acc x).Nodup := by
  by_cases hx : x ∈ acc
  · simpa [insertIfNew, hx] using h
  · simp [insertIfNew, hx, List.nodup_append, h]

theorem mem_insertIfNew (acc : List String) (x e : String)
    (h : e ∈ insertIfNew acc x) : e ∈ acc ∨ e = x := by
  by_cases hx : x ∈ acc
  · simp [insertIfNew, hx] at h
    exact Or.inl h
  · simp [insertIfNew, hx] at h
    exact h

theorem foldl_insertIfNew_nodup (xs : List String) :
    ∀ acc : List String, acc.Nodup → (xs.foldl insertIfNew acc).Nodup := by
  induction xs with
  | nil => intro acc h; exact h
  | cons x rest ih => intro acc h; exact ih _ (insertIfNew_nodup acc x h)

theorem mem_foldl_insertIfNew (xs : List String) :
    ∀ (acc : List String) (e : String),
      e ∈ xs.foldl insertIfNew acc → e ∈ acc ∨ e ∈ xs := by
  induction xs with
  | nil => intro acc e h; exact Or.inl h
  | cons x rest ih =>
    intro acc e h
    rcases ih _ _ h with h1 | h2
    · rcases mem_insertIfNew acc x e h1 with h3 | h4
      · exact Or.inl h3
      · exact Or.inr (by simp [h4])
    · exact Or.inr (List.mem_cons_of_mem _ h2)

theorem jsSetDedup_nodup (xs : List String) : (jsSetDedup xs).Nodup :=
  foldl_insertIfNew_nodup xs [] List.nodup_nil

theorem mem_jsSetDedup (xs : List String) (e : String)
    (h : e ∈ jsSetDedup xs) : e ∈ xs := by
  rcases mem_foldl_insertIfNew xs [] e h with h1 | h2
  · exact absurd h1 (List.not_mem_nil e)
  · exact h2

theorem passesSkipCheck_eq (a : JobAnalysis) :
    passesSkipCheck a = (a.isLegitimate && decide (5 ≤ a.relevanceScore)) := by
  unfold passesSkipCheck
  by_cases h1 : a.isLegitimate <;> by_cases h2 : a.relevanceScore < 5
  · have h3 : ¬ (5 ≤ a.relevanceScore) := by omega
    simp [h1, h2, h3]
  · have h3 : 5 ≤ a.relevanceScore := by omega
    simp [h1, h2, h3]
  · simp [h1, h2]
  · simp [h1, h2]

/- ===== Claim theorems ===== -/

/-- C7: whenever the Gemini call fails (the collaborator threw) or its
response is not parseable JSON, analyzeJobPost still returns a value (the
Lean model is total, mirroring that both failure branches are caught),
and that value has isLegitimate = true and relevanceScore = 5. -/
theorem c7_default_on_failure (o : GeminiOutcome)
    (h : o = GeminiOutcome.unparseable ∨ o = GeminiOutcome.apiError) :
    (analyzeJobPost o).isLegitimate = true ∧ (analyzeJobPost o).relevanceScore = 5 := by
  rcases h with h | h <;> subst h <;> exact ⟨rfl, rfl⟩

/-- Witness for C7 at the concrete outcome apiError. -/
theorem c7_default_on_failure_witness :
    (analyzeJobPost GeminiOutcome.apiError).isLegitimate = true ∧
    (analyzeJobPost GeminiOutcome.apiError).relevanceScore = 5 :=
  c7_default_on_failure GeminiOutcome.apiError (Or.inr rfl)

/-- C10: extractJobPosts never returns more than
config.linkedin.maxSearchResults records, however many post containers
the page held: the loop bound truncates the containers and each
iteration contributes at most one record. -/
theorem c10_bounded_results (cfg : LinkedInConfig) (searchKeyword : String)
    (rawPosts : List String) :
    (extractJobPosts cfg.maxSearchResults searchKeyword rawPosts).length ≤
      cfg.maxSearchResults := by
  unfold extractJobPosts
  have h1 := List.length_filterMap_le (keepPost searchKeyword)
    (rawPosts.take cfg.maxSearchResults)
  have h2 : (rawPosts.take cfg.maxSearchResults).length ≤ cfg.maxSearchResults := by
    simp [List.length_take]
  omega

/-- C5 counterexample: when authentication fails (login returned false,
e.g. an unresolved challenge, or login threw), start returns false with
cleanup run -- but generateSessionReport is never called on that path,
contradicting the claim that a failed SessionReport is still generated
and persisted. -/
theorem c5_counterexample :
    (start LoginOutcome.failed []).reportGenerated = false ∧
    (start LoginOutcome.threw []).reportGenerated = false ∧
    (start LoginOutcome.failed []).returned = some false := by
  decide

/-- C5 (amended): for every run in which authentication fails (login
returned false or threw, including the unresolved-challenge case), start
returns false, no exception escapes, and the finally-block cleanup runs;
no SessionReport is generated on this path. -/
theorem c5_auth_failure (login : LoginOutcome) (jobs : List JobPost)
    (h : login ≠ LoginOutcome.success) :
    start login jobs = ⟨some false, false, true⟩ := by
  cases login with
  | success => exact absurd rfl h
  | failed => rfl
  | threw => rfl

/-- Witness for C5 at the concrete outcome failed. -/
theorem c5_auth_failure_witness :
    start LoginOutcome.failed [] = ⟨some false, false, true⟩ :=
  c5_auth_failure LoginOutcome.failed [] (by decide)

/-- Helper: canSendEmail on a state whose last action happened at time t,
with the daily cap not yet reached, is false exactly inside the cooldown
window. -/
theorem canSendEmail_some (cfg : BotConfig) (now c t : Nat)
    (hc : c < cfg.maxApplicationsPerDay) (hle : t ≤ now) :
    (canSendEmail cfg now ⟨c, some t⟩ = false ↔
      now < t + cfg.delayBetweenApplications * 60 * 1000) := by
  have h1 : ¬ (cfg.maxApplicationsPerDay ≤ c) := by omega
  by_cases hcool : now - t < cfg.delayBetweenApplications * 60 * 1000
  · simp [canSendEmail, h1, hcool]
    omega
  · simp [canSendEmail, h1, hcool]
    omega

/-- Helper: canSendEmail with no recorded action and the daily cap not
reached returns true. -/
theorem canSendEmail_none (cfg : BotConfig) (now c : Nat)
    (hc : c < cfg.maxApplicationsPerDay) :
    canSendEmail cfg now ⟨c, none⟩ = true := by
  have h1 : ¬ (cfg.maxApplicationsPerDay ≤ c) := by omega
  simp [canSendEmail, h1]

/-- C1: a job is actionable (survives the processJobs hasEmails filter and
passes the skip check of processIndividualJob, reaching email handling)
iff isLegitimate, relevanceScore ≥ 5 and the extracted email list is
non-empty; a score-4 analysis never passes the skip check; a job with no
emails never enters the per-job loop.  The hasEmails hypotheses are the
invariant extractPostData establishes (hasEmails = emails.length > 0). -/
theorem c1_actionability (jobs : List JobPost) (job jobNoEmail : JobPost)
    (a a4 : JobAnalysis)
    (hwf : job.hasEmails = decide (0 < job.emails.length))
    (hwf2 : jobNoEmail.hasEmails = decide (0 < jobNoEmail.emails.length))
    (ha4 : a4.relevanceScore = 4)
    (hempty : jobNoEmail.emails = []) :
    ((job ∈ jobsWithEmails jobs ∧ passesSkipCheck a = true) ↔
      (job ∈ jobs ∧ a.isLegitimate = true ∧ 5 ≤ a.relevanceScore ∧
        job.emails ≠ [])) ∧
    passesSkipCheck a4 = false ∧
    jobNoEmail ∉ jobsWithEmails jobs := by
  refine ⟨?_, ?_, ?_⟩
  · have hmem : job ∈ jobsWithEmails jobs ↔ (job ∈ jobs ∧ job.emails ≠ []) := by
      simp [jobsWithEmails, List.mem_filter, hwf, List.length_pos]
    have hpass : passesSkipCheck a = true ↔
        (a.isLegitimate = true ∧ 5 ≤ a.relevanceScore) := by
      simp [passesSkipCheck_eq]
    rw [hmem, hpass]
    tauto
  · have h3 : ¬ (5 ≤ a4.relevanceScore) := by omega
    simp [passesSkipCheck_eq, h3]
  · simp [jobsWithEmails, List.mem_filter, hwf2, hempty]

/-- Witness for C1: a legitimate score-5 job with one address is
actionable; a score-4 analysis is skipped; an address-free job is
filtered out before per-job processing. -/
theorem c1_actionability_witness :
    (((⟨"We are hiring a@b.co", ["a@b.co"], true, "kw"⟩ : JobPost) ∈
        jobsWithEmails [⟨"We are hiring a@b.co", ["a@b.co"], true, "kw"⟩] ∧
      passesSkipCheck ⟨none, "Developer", true, 5⟩ = true) ↔
      ((⟨"We are hiring a@b.co", ["a@b.co"], true, "kw"⟩ : JobPost) ∈
        [(⟨"We are hiring a@b.co", ["a@b.co"], true, "kw"⟩ : JobPost)] ∧
       (⟨none, "Developer", true, 5⟩ : JobAnalysis).isLegitimate = true ∧
       5 ≤ (⟨none, "Developer", true, 5⟩ : JobAnalysis).relevanceScore ∧
       (⟨"We are hiring a@b.co", ["a@b.co"], true, "kw"⟩ : JobPost).emails ≠ [])) ∧
    passesSkipCheck ⟨none, "Developer", true, 4⟩ = false ∧
    (⟨"no address here", [], false, "kw"⟩ : JobPost) ∉
      jobsWithEmails [⟨"We are hiring a@b.co", ["a@b.co"], true, "kw"⟩] :=
  c1_actionability [⟨"We are hiring a@b.co", ["a@b.co"], true, "kw"⟩]
    ⟨"We are hiring a@b.co", ["a@b.co"], true, "kw"⟩
    ⟨"no address here", [], false, "kw"⟩
    ⟨none, "Developer", true, 5⟩ ⟨none, "Developer", true, 4⟩
    (by decide) (by decide) (by decide) (by decide)

/-- C3: with the daily limit not reached, immediately after
updateEmailTracking at time t, canSendEmail at any now ≥ t returns false
exactly while now < t + delayBetweenApplications minutes (i.e. while
now - t is inside the cooldown) and true from t + cooldown on; and with
no prior action recorded (lastEmailTime null) and the daily limit not
reached, canSendEmail returns true. -/
theorem c3_cooldown (cfg : BotConfig) (s s0 : EmailTracking) (t now : Nat)
    (hle : t ≤ now)
    (hday : (updateEmailTracking t s).dailyEmailCount < cfg.maxApplicationsPerDay)
    (hnone : s0.lastEmailTime = none)
    (hday0 : s0.dailyEmailCount < cfg.maxApplicationsPerDay) :
    (canSendEmail cfg now (updateEmailTracking t s) = false ↔
      now < t + cfg.delayBetweenApplications * 60 * 1000) ∧
    canSendEmail cfg now s0 = true := by
  constructor
  · exact canSendEmail_some cfg now (updateEmailTracking t s).dailyEmailCount t hday hle
  · obtain ⟨c0, l0⟩ := s0
    cases l0 with
    | none => exact canSendEmail_none cfg now c0 hday0
    | some x => simp at hnone

/-- Witness for C3: after one action at t = 0 (state count 1 < 10), the
gate is closed at 15 minutes (900000 ms < 30-minute cooldown); a fresh
state with no recorded action is open. -/
theorem c3_cooldown_witness :
    (canSendEmail defaultBotConfig 900000
        (updateEmailTracking 0 (freshEmailService [])) = false ↔
      900000 < 0 + defaultBotConfig.delayBetweenApplications * 60 * 1000) ∧
    canSendEmail defaultBotConfig 900000 (freshEmailService []) = true :=
  c3_cooldown defaultBotConfig (freshEmailService []) (freshEmailService []) 0 900000
    (by decide) (by decide) (by decide) (by decide)

/-- C2 (evaluation at the failing input): 10 updateEmailTracking calls on
day 0 (default maxApplicationsPerDay = 10, calls spaced 30 minutes) leave
dailyEmailCount = 10, and canSendEmail on day 3 still returns false:
neither updateEmailTracking (its reset branch compares the day of
lastEmailTime with the current day immediately after lastEmailTime was
set to the current instant) nor canSendEmail (which reads no date) ever
resets the counter, so the gate never reopens after the date rolls over,
contrary to the claim and to the code's own comment. -/
theorem c2_quota_rollover_eval :
    ((List.range 10).map (fun k => k * 1800000)).foldl
        (fun s t => updateEmailTracking t s) (freshEmailService []) =
      ⟨10, some 16200000⟩ ∧
    toDateString 16200000 = toDateString 0 ∧
    toDateString 259200000 ≠ toDateString 0 ∧
    canSendEmail defaultBotConfig 259200000
      (((List.range 10).map (fun k => k * 1800000)).foldl
        (fun s t => updateEmailTracking t s) (freshEmailService [])) = false := by
  decide

/-- C6 counterexample: with the durable store already holding 10 records
for the current day (= the default daily limit), a freshly constructed
EmailService still answers canSendEmail = true, because the constructor
initializes dailyEmailCount = 0 / lastEmailTime = null and never reads
the store; the claim says it would answer false. -/
theorem c6_counterexample :
    defaultBotConfig.maxApplicationsPerDay ≤
      storeCountForDay
        (((List.range 10).map (fun k => k * 1800000)).foldl saveSentEmail []) 0 ∧
    canSendEmail defaultBotConfig 20000000
      (freshEmailService
        (((List.range 10).map (fun k => k * 1800000)).foldl saveSentEmail [])) = true := by
  decide

/-- C6 (amended): the quota counters are process-local only.  A quota
gate constructed in a new run starts from dailyEmailCount = 0 and
lastEmailTime = null, so canSendEmail returns true at any time and for
any content of the durable sent-email store (provided the configured
daily limit is positive, as any parseInt(env) || 10 value is). -/
theorem c6_fresh_process (cfg : BotConfig) (now : Nat) (store : List Nat)
    (h : 0 < cfg.maxApplicationsPerDay) :
    canSendEmail cfg now (freshEmailService store) = true := by
  have h1 : ¬ (cfg.maxApplicationsPerDay ≤ 0) := by omega
  simp [canSendEmail, freshEmailService, h1]

/-- Witness for C6 at a concrete store and time. -/
theorem c6_fresh_process_witness :
    canSendEmail defaultBotConfig 0 (freshEmailService [0, 0, 0]) = true :=
  c6_fresh_process defaultBotConfig 0 [0, 0, 0] (by decide)

/-- Helper: if the stop flag is observed true at some poll index n, the
candidate loop processes at most n - i candidates from index i on. -/
theorem processJobsLoop_length_le (flag : Nat → Bool) (jobs : List JobPost) :
    ∀ i n : Nat, i ≤ n → flag n = true →
      (processJobsLoop flag jobs i).length ≤ n - i := by
  induction jobs with
  | nil =>
    intro i n _ _
    simp [processJobsLoop]
  | cons job rest ih =>
    intro i n h1 h2
    by_cases hf : flag i = true
    · simp [processJobsLoop, hf]
    · have hne : i ≠ n := fun he => hf (he ▸ h2)
      have h3 := ih (i + 1) n (by omega) h2
      simp [processJobsLoop, hf]
      omega

/-- Helper: the keyword loop of LinkedInService.searchJobs searches every
keyword no matter what the stop flag does. -/
theorem searchJobsLoop_eq (flag : Nat → Bool) :
    ∀ (keywords : List String) (i : Nat), searchJobsLoop flag keywords i = keywords := by
  intro keywords
  induction keywords with
  | nil => intro i; rfl
  | cons k rest ih => intro i; simp [searchJobsLoop, ih]

/-- C8 counterexample: with the stop flag already set before the first
keyword, the keyword loop of LinkedInService.searchJobs still searches
every keyword -- it contains no poll of the flag -- contradicting the
claim that once the flag is set no further keyword is searched. -/
theorem c8_counterexample :
    searchJobsLoop (fun _ => true)
      ["software developer hiring", "react developer hiring"] 0 =
      ["software developer hiring", "react developer hiring"] ∧
    searchJobsLoop (fun _ => true)
      ["software developer hiring", "react developer hiring"] 0 ≠ [] := by
  decide

/-- C8 (amended): the stop flag is polled at the top of each candidate
iteration of processJobs -- a flag observed true at poll 0 means no
candidate is processed, and a flag observed true at poll n bounds the
processed candidates by n (after which the run proceeds to report
generation) -- but the keyword loop of LinkedInService.searchJobs never
polls the flag and always searches the full keyword list. -/
theorem c8_cancellation (flagA flagB flagC : Nat → Bool)
    (jobsA jobsB : List JobPost) (keywords : List String) (n : Nat)
    (h0 : flagA 0 = true) (hn : flagB n = true) :
    processJobsLoop flagA jobsA 0 = [] ∧
    (processJobsLoop flagB jobsB 0).length ≤ n ∧
    searchJobsLoop flagC keywords 0 = keywords := by
  refine ⟨?_, ?_, ?_⟩
  · cases jobsA with
    | nil => rfl
    | cons j rest => simp [processJobsLoop, h0]
  · have h := processJobsLoop_length_le flagB jobsB 0 n (Nat.zero_le n) hn
    simpa using h
  · exact searchJobsLoop_eq flagC keywords 0

/-- Witness for C8 with a flag that is set from the start: the candidate
loop processes nothing, the keyword loop still searches its keyword. -/
theorem c8_cancellation_witness :
    processJobsLoop (fun _ => true)
      [⟨"We are hiring a@b.co", ["a@b.co"], true, "kw"⟩] 0 = [] ∧
    (processJobsLoop (fun _ => true)
      [⟨"We are hiring a@b.co", ["a@b.co"], true, "kw"⟩] 0).length ≤ 0 ∧
    searchJobsLoop (fun _ => true) ["software developer hiring"] 0 =
      ["software developer hiring"] :=
  c8_cancellation (fun _ => true) (fun _ => true) (fun _ => true)
    [⟨"We are hiring a@b.co", ["a@b.co"], true, "kw"⟩]
    [⟨"We are hiring a@b.co", ["a@b.co"], true, "kw"⟩]
    ["software developer hiring"] 0 rfl rfl

/-- Helper: the keep decision of the extraction loop succeeds exactly for
non-empty trimmed content that isRelevantJobPost accepts. -/
theorem keepPost_isSome (searchKeyword rawText : String) :
    (keepPost searchKeyword rawText).isSome =
      (decide (jsTrim rawText ≠ "") &&
        isRelevantJobPost (jsTrim rawText) searchKeyword) := by
  by_cases hempty : jsTrim rawText = ""
  · simp [keepPost, extractPostData, hempty]
  · by_cases hrel : isRelevantJobPost (jsTrim rawText) searchKeyword = true
    · simp [keepPost, extractPostData, hempty, hrel]
    · simp [keepPost, extractPostData, hempty, hrel]

/-- C9: a scraped post is kept as a candidate iff its trimmed content is
non-empty (extractPostData returns null otherwise) and the relevance
heuristic holds: some job-indicator word occurs in the lowercased
content, and either the search keyword occurs case-insensitively or the
content is longer than 100 characters. -/
theorem c9_relevance_filter (searchKeyword rawText : String) :
    (keepPost searchKeyword rawText).isSome = true ↔
      (jsTrim rawText ≠ "" ∧
       (jobIndicators.any fun indicator =>
         containsSubstring (toLowerStr (jsTrim rawText)) (toLowerStr indicator)) = true ∧
       (containsSubstring (toLowerStr (jsTrim rawText)) (toLowerStr searchKeyword) = true ∨
        100 < (jsTrim rawText).length)) := by
  rw [keepPost_isSome]
  simp [isRelevantJobPost]

/-- Witness for C9 at a concrete post and keyword. -/
theorem c9_relevance_filter_witness :
    (keepPost "hiring" " We are hiring engineers, reach a@b.co ").isSome = true ↔
      (jsTrim " We are hiring engineers, reach a@b.co " ≠ "" ∧
       (jobIndicators.any fun indicator =>
         containsSubstring
           (toLowerStr (jsTrim " We are hiring engineers, reach a@b.co "))
           (toLowerStr indicator)) = true ∧
       (containsSubstring
          (toLowerStr (jsTrim " We are hiring engineers, reach a@b.co "))
          (toLowerStr "hiring") = true ∨
        100 < (jsTrim " We are hiring engineers, reach a@b.co ").length)) :=
  c9_relevance_filter "hiring" " We are hiring engineers, reach a@b.co "

/-- C4 counterexample: the same address appearing in two letter-casings
survives the Set dedup twice (a JS Set compares exact strings), so the
result contains a case-insensitive duplicate, and the text with two
casings of one address plus one noreply address yields two entries, not
one. -/
theorem c4_counterexample :
    extractEmails "Alice@x.com alice@x.com noreply@x.com" =
      ["Alice@x.com", "alice@x.com"] ∧
    toLowerStr "Alice@x.com" = toLowerStr "alice@x.com" := by
  constructor
  · decide
  · decide

/-- C4 (amended): extractEmails returns a list with no duplicates under
exact (case-sensitive) string comparison whose every entry avoids the
noreply / no-reply / donotreply denylist (case-insensitively); the same
address in two different casings yields two entries. -/
theorem c4_extract_dedup (text e : String) (he : e ∈ extractEmails text) :
    (extractEmails text).Nodup ∧ isAllowedEmail e = true := by
  constructor
  · exact jsSetDedup_nodup _
  · have h2 := mem_jsSetDedup _ _ he
    exact (List.mem_filter.mp h2).2

/-- Witness for C4 at a concrete text and extracted address. -/
theorem c4_extract_dedup_witness :
    (extractEmails "Contact a@b.co").Nodup ∧ isAllowedEmail "a@b.co" = true :=
  c4_extract_dedup "Contact a@b.co" "a@b.co" (by decide)
